import Mathlib

/-!
Verification development for the dynarmic A64 JIT coordinator
(`src/backend_x64/a64_interface.cpp`, `Jit::Impl`).

The coordinator's own code (`Run`, `ClearCache`, `InvalidateCacheRange`,
`Reset`, `HaltExecution`, the guest-state accessors,
`GetCurrentBlock`, `RequestCacheInvalidation`,
`PerformRequestedCacheInvalidation`) is embedded shallowly below.
External collaborators (the emitter's block table, the code buffer, the
translation pipeline) and the `A64JitState` structure live in headers
that are not part of the sources at hand; those parts are modelled from
the specification, and each such definition is marked
`Modelled from the spec:` in its doc comment.

Machine integers (`u64`) are represented as `Nat` with explicit
`% 2^64` where the source relies on wraparound.  Fallible operations
(`std::array::at`, which throws on an out-of-range index) return
`Option`.  The fatal `ASSERT` path is represented by the `fatal`
constructor of `AResult`, which carries the (unmutated) state at the
moment the assertion fired.

To reason about ordering ("the drain happens after generated code runs
and before the coordinator is marked idle", "a cache hit does no
translation work"), each mutating operation additionally returns a
trace: the list of externally visible actions it performed, in order.
-/

namespace Dynarmic

namespace A64

/-- The u64 modulus, 2^64. -/
def U64_MOD : Nat := 18446744073709551616

/-- A closed (inclusive) interval of `u64` addresses, as used by
`boost::icl::discrete_interval<u64>::closed`.  The interval is empty
iff `hi < lo`. -/
structure Ivl where
  lo : Nat
  hi : Nat
deriving DecidableEq

/-- A closed interval is empty iff its upper bound is below its lower
bound (boost.icl semantics for `closed(a, b)` with `b < a`). -/
def Ivl.isEmpty (i : Ivl) : Bool := decide (i.hi < i.lo)

/-- Two closed intervals on a discrete domain touch (and must be
coalesced by `boost::icl::interval_set::add`) iff they overlap or are
adjacent. -/
def Ivl.touches (i j : Ivl) : Bool :=
  decide (j.lo ≤ i.hi + 1) && decide (i.lo ≤ j.hi + 1)

/-- `boost::icl::interval_set<u64>::add`: inserting an empty interval
is a no-op; otherwise the inserted interval absorbs every stored
interval it overlaps or is adjacent to, so that the set keeps only
coalesced, pairwise non-touching, nonempty intervals. -/
def IntervalSet.add (i : Ivl) (s : List Ivl) : List Ivl :=
  if i.isEmpty then s
  else
    let absorbed := s.filter (fun j => i.touches j)
    let rest := s.filter (fun j => ! i.touches j)
    (absorbed.foldl (fun acc j => ⟨min acc.lo j.lo, max acc.hi j.hi⟩) i) :: rest

/-- Modelled from the spec: the A64 guest state (`A64JitState`, whose
header is not among the sources).  General registers `reg` (31 of
them; index 31 is the stack pointer, held separately in `sp`), the
vector file `vec` in the paired low/high representation (32 vectors,
64 `u64` slots), program counter, stack pointer, floating-point
control word (the mode bits entering the context key), the
halt-request flag, and the bounded return-address prediction structure
`rsb` ("return stack buffer"). -/
structure A64JitState where
  reg : List Nat
  vec : List Nat
  sp : Nat
  pc : Nat
  fpcr : Nat
  halt_requested : Bool
  rsb : List Nat
deriving DecidableEq

/-- Modelled from the spec: the zero/initial guest state produced by
construction and by `jit_state = {}` in `Reset`. -/
def A64JitState.init : A64JitState :=
  { reg := List.replicate 31 0
    vec := List.replicate 64 0
    sp := 0
    pc := 0
    fpcr := 0
    halt_requested := false
    rsb := [] }

/-- Modelled from the spec: `ResetRSB` empties the return-address
prediction structure. -/
def A64JitState.ResetRSB (js : A64JitState) : A64JitState :=
  { js with rsb := [] }

/-- Modelled from the spec: `GetUniqueHash`, the context key — a pure
function of the program counter plus the execution-mode bits that
affect code generation. -/
def A64JitState.GetUniqueHash (js : A64JitState) : Nat × Nat :=
  (js.pc, js.fpcr)

/-- Modelled from the spec: a compiled block as registered with the
Cache/Emit collaborator — its context key, its starting guest address,
its guest-address extent in bytes, and its host entry point. -/
structure Block where
  key : Nat × Nat
  addr : Nat
  size : Nat
  entry : Nat
deriving DecidableEq

/-- Modelled from the spec: the Cache/Emit collaborator's
lookup-by-context-key (`emitter.GetBasicBlock`), returning the
existing compiled block for a key if there is one. -/
def GetBasicBlock (blocks : List Block) (loc : Nat × Nat) : Option Block :=
  blocks.find? (fun b => decide (b.key = loc))

/-- Modelled from the spec: the Cache/Emit collaborator's selective
range invalidation (`emitter.InvalidateCacheRanges`) — a block is
discarded iff its guest-address extent intersects one of the recorded
closed intervals. -/
def EmitInvalidateRanges (ranges : List Ivl) (blocks : List Block) : List Block :=
  blocks.filter (fun b =>
    ! ranges.any (fun i => decide (i.lo ≤ b.addr + b.size - 1) && decide (b.addr ≤ i.hi)))

/-- A 128-bit guest vector register in the paired low/high
representation (`Jit::Vector`). -/
structure Vector where
  low : Nat
  high : Nat
deriving DecidableEq

/-- Externally visible actions of the coordinator, recorded in traces
in the order the source performs them. -/
inductive Event where
  /-- `Run` marks the coordinator executing. -/
  | setExecuting
  /-- `Run` clears the halt-request flag on entry. -/
  | clearHalt
  /-- The scope-exit guard of `Run` marks the coordinator idle. -/
  | markIdle
  /-- `PerformRequestedCacheInvalidation` resets the return stack buffer. -/
  | resetRSB
  /-- `block_of_code.ClearCache()`: all executable memory is cleared. -/
  | bocClear
  /-- `emitter.ClearCache()`: the block table is cleared. -/
  | emitClear
  /-- `emitter.InvalidateCacheRanges(rs)`: selective invalidation. -/
  | emitInvRanges (rs : List Ivl)
  /-- `GetCurrentBlock` compares `block_of_code.SpaceRemaining()`
  against the low-water mark. -/
  | spaceCheck
  /-- `A64::Translate` is invoked for the given guest address. -/
  | translateAddr (vaddr : Nat)
  /-- `Optimization::DeadCodeElimination` runs over the block. -/
  | dcePass
  /-- `Optimization::VerificationPass` runs over the block. -/
  | verifyPass
  /-- `emitter.Emit` lowers and registers the block under the key. -/
  | emitBlockEv (key : Nat × Nat)
deriving DecidableEq

/-- The coordinator state (`Jit::Impl`).  `blocks`, `space_remaining`,
`capacity` and `next_ep` stand for the observable state of the two
external collaborators it owns: `blocks` is the emitter's block table,
`space_remaining`/`capacity` the code buffer's remaining and total
executable memory, and `next_ep` the next fresh host entry point the
emitter will hand out. -/
structure Impl where
  is_executing : Bool
  jit_state : A64JitState
  blocks : List Block
  space_remaining : Nat
  capacity : Nat
  next_ep : Nat
  invalidate_entire_cache : Bool
  invalid_cache_ranges : List Ivl
deriving DecidableEq

/-- Result of an operation guarded by `ASSERT`: either the fatal
assertion fired — carrying the state exactly as it was at that moment,
nothing having been mutated — or the operation completed with a
value. -/
inductive AResult (α : Type) where
  | fatal (s : Impl) : AResult α
  | ok (v : α) : AResult α
deriving DecidableEq

/-- Modelled from the spec: the external collaborators invoked on the
compile path — the translation pipeline (guest address to an
intermediate-representation block, here an opaque token), the
dead-code-elimination pass, and the emitter's measure of how many
guest bytes the compiled block covers. -/
structure Ext where
  translate : Nat → Nat
  dce : Nat → Nat
  blockSize : Nat → Nat

/-- `Jit::Impl::PerformRequestedCacheInvalidation`: if nothing is
pending, do nothing; otherwise reset the return stack buffer, then
either clear everything (code buffer and block table) or selectively
invalidate the recorded ranges, and finally empty the invalidation set
and lower the flag. -/
def Impl.PerformRequestedCacheInvalidation (s : Impl) : Impl × List Event :=
  if !s.invalidate_entire_cache && s.invalid_cache_ranges.isEmpty then
    (s, [])
  else if s.invalidate_entire_cache then
    ({ s with jit_state := s.jit_state.ResetRSB
              blocks := []
              space_remaining := s.capacity
              invalid_cache_ranges := []
              invalidate_entire_cache := false },
     [Event.resetRSB, Event.bocClear, Event.emitClear])
  else
    ({ s with jit_state := s.jit_state.ResetRSB
              blocks := EmitInvalidateRanges s.invalid_cache_ranges s.blocks
              invalid_cache_ranges := []
              invalidate_entire_cache := false },
     [Event.resetRSB, Event.emitInvRanges s.invalid_cache_ranges])

/-- `Jit::Impl::RequestCacheInvalidation`: while executing, only set
the halt-request flag and return; while idle, perform the pending
invalidation immediately. -/
def Impl.RequestCacheInvalidation (s : Impl) : Impl × List Event :=
  if s.is_executing then
    ({ s with jit_state := { s.jit_state with halt_requested := true } }, [])
  else
    s.PerformRequestedCacheInvalidation

/-- `Jit::Impl::ClearCache`: record "invalidate everything", then
request invalidation. -/
def Impl.ClearCache (s : Impl) : Impl × List Event :=
  Impl.RequestCacheInvalidation { s with invalidate_entire_cache := true }

/-- `Jit::Impl::InvalidateCacheRange(start, length)`: merge the closed
interval `[start, start + length - 1]` — the upper bound computed in
u64 (mod 2^64) arithmetic — into the invalidation set, then request
invalidation. -/
def Impl.InvalidateCacheRange (s : Impl) (start_address length : Nat) : Impl × List Event :=
  let end_address := (start_address + length + (U64_MOD - 1)) % U64_MOD
  Impl.RequestCacheInvalidation
    { s with invalid_cache_ranges :=
        IntervalSet.add ⟨start_address, end_address⟩ s.invalid_cache_ranges }

/-- `Jit::Impl::Run`.  `rc` is the external `block_of_code.RunCode`
step: generated code running, possibly mutating the coordinator
through callbacks, and returning its own trace.  `ASSERT(!is_executing)`
fires fatally before any mutation; otherwise the coordinator is marked
executing, the halt-request flag is cleared, generated code runs, the
pending invalidation is drained, and — last, when the function scope
exits — the `SCOPE_EXIT` guard (`common/scope_exit.h`, the standard
scope-guard idiom: its action runs when the enclosing scope is left,
i.e. after the body's final statement) marks the coordinator idle. -/
def Impl.Run (rc : Impl → Impl × List Event) (s : Impl) : AResult (Impl × List Event) :=
  if s.is_executing then AResult.fatal s
  else
    let s1 : Impl := { s with is_executing := true }
    let s2 : Impl := { s1 with jit_state := { s1.jit_state with halt_requested := false } }
    let r3 := rc s2
    let r4 := r3.1.PerformRequestedCacheInvalidation
    AResult.ok ({ r4.1 with is_executing := false },
      [Event.setExecuting, Event.clearHalt] ++ r3.2 ++ r4.2 ++ [Event.markIdle])

/-- `Jit::Impl::Reset`: `ASSERT(!is_executing)`, then `jit_state = {}`
— the guest state is restored to its zero/initial value and nothing
else is touched. -/
def Impl.Reset (s : Impl) : AResult Impl :=
  if s.is_executing then AResult.fatal s
  else AResult.ok { s with jit_state := A64JitState.init }

/-- `Jit::Impl::HaltExecution`. -/
def Impl.HaltExecution (s : Impl) : Impl :=
  { s with jit_state := { s.jit_state with halt_requested := true } }

/-- `Jit::Impl::GetSP`. -/
def Impl.GetSP (s : Impl) : Nat := s.jit_state.sp

/-- `Jit::Impl::SetSP`. -/
def Impl.SetSP (s : Impl) (value : Nat) : Impl :=
  { s with jit_state := { s.jit_state with sp := value } }

/-- `Jit::Impl::GetPC`. -/
def Impl.GetPC (s : Impl) : Nat := s.jit_state.pc

/-- `Jit::Impl::SetPC`. -/
def Impl.SetPC (s : Impl) (value : Nat) : Impl :=
  { s with jit_state := { s.jit_state with pc := value } }

/-- `Jit::Impl::GetRegister`: index 31 aliases the stack pointer;
otherwise `jit_state.reg.at(index)`, which throws (here: `none`) when
the index is out of range. -/
def Impl.GetRegister (s : Impl) (index : Nat) : Option Nat :=
  if index = 31 then some s.GetSP
  else s.jit_state.reg.get? index

/-- `Jit::Impl::SetRegister`: index 31 aliases the stack pointer;
otherwise `jit_state.reg.at(index) = value`, which throws (here:
`none`) when the index is out of range. -/
def Impl.SetRegister (s : Impl) (index : Nat) (value : Nat) : Option Impl :=
  if index = 31 then some (s.SetSP value)
  else if index < s.jit_state.reg.length then
    some { s with jit_state := { s.jit_state with reg := s.jit_state.reg.set index value } }
  else none

/-- `Jit::Impl::GetVector`: reads `vec.at(index * 2)` and
`vec.at(index * 2 + 1)`; an out-of-range index throws (here: `none`). -/
def Impl.GetVector (s : Impl) (index : Nat) : Option Vector :=
  match s.jit_state.vec.get? (index * 2), s.jit_state.vec.get? (index * 2 + 1) with
  | some lo, some hi => some ⟨lo, hi⟩
  | _, _ => none

/-- `Jit::Impl::SetVector`: writes `vec.at(index * 2)` and
`vec.at(index * 2 + 1)`; an out-of-range index throws (here: `none`)
before anything is written. -/
def Impl.SetVector (s : Impl) (index : Nat) (value : Vector) : Option Impl :=
  if index * 2 + 1 < s.jit_state.vec.length then
    some { s with jit_state := { s.jit_state with
      vec := (s.jit_state.vec.set (index * 2) value.low).set (index * 2 + 1) value.high } }
  else none

/-- `Jit::Impl::IsExecuting`. -/
def Impl.IsExecuting (s : Impl) : Bool := s.is_executing

/-- `MINIMUM_REMAINING_CODESIZE`, the low-water mark of
`GetCurrentBlock`. -/
def MINIMUM_REMAINING_CODESIZE : Nat := 1 * 1024 * 1024

/-- `Jit::Impl::GetCurrentBlock`, the lazy lookup/compile callback
invoked from generated code: on a cache hit under the current context
key, return the existing entry point at once; on a miss, if the code
buffer's remaining capacity is below the low-water mark, force a full
cache clear, then translate the current guest address, run dead-code
elimination and the verification pass, emit the block, and return the
new entry point. -/
def Impl.GetCurrentBlock (ext : Ext) (s : Impl) : Impl × Nat × List Event :=
  let current_location := s.jit_state.GetUniqueHash
  match GetBasicBlock s.blocks current_location with
  | some block => (s, block.entry, [])
  | none =>
    let r1 : Impl × List Event :=
      if s.space_remaining < MINIMUM_REMAINING_CODESIZE then
        let r := Impl.PerformRequestedCacheInvalidation
          { s with invalidate_entire_cache := true }
        (r.1, [Event.spaceCheck] ++ r.2)
      else (s, [Event.spaceCheck])
    let ir_block := ext.translate current_location.1
    let ir_block := ext.dce ir_block
    let newBlock : Block :=
      { key := current_location
        addr := current_location.1
        size := ext.blockSize ir_block
        entry := r1.1.next_ep }
    ({ r1.1 with blocks := newBlock :: r1.1.blocks, next_ep := r1.1.next_ep + 1 },
     r1.1.next_ep,
     r1.2 ++ [Event.translateAddr current_location.1, Event.dcePass,
              Event.verifyPass, Event.emitBlockEv current_location])

/-! ### Sample states used by the witnesses -/

/-- A sample compiled block registered under the context key `(100, 0)`. -/
def sampleBlock : Block := { key := (100, 0), addr := 100, size := 8, entry := 7 }

/-- A sample guest state whose program counter sits at `sampleBlock`. -/
def sampleJitState : A64JitState := { A64JitState.init with pc := 100 }

/-- A sample idle coordinator owning one compiled block. -/
def sampleJit : Impl :=
  { is_executing := false
    jit_state := sampleJitState
    blocks := [sampleBlock]
    space_remaining := 4194304
    capacity := 16777216
    next_ep := 8
    invalidate_entire_cache := false
    invalid_cache_ranges := [] }

/-- The same coordinator while generated code is running. -/
def sampleJitExec : Impl := { sampleJit with is_executing := true }

/-! ### Claims -/

/-- C4: for every value `v`, `SetRegister(31, v)` behaves exactly as
`SetSP(v)` and a subsequent `GetSP()` returns `v`; likewise `SetSP(v)`
followed by `GetRegister(31)` returns `v`, and `GetRegister(31)`
always equals `GetSP()`. -/
theorem claim_C4 (s : Impl) (v : Nat) :
    Impl.SetRegister s 31 v = some (Impl.SetSP s v)
    ∧ Impl.GetSP (Impl.SetSP s v) = v
    ∧ Impl.GetRegister (Impl.SetSP s v) 31 = some v
    ∧ Impl.GetRegister s 31 = some (Impl.GetSP s) :=
  ⟨rfl, rfl, rfl, rfl⟩

/-- C9: calling `Run` or `Reset` while the coordinator is already
executing triggers the fatal assertion path before any state is
mutated (the `fatal` result carries the state exactly as it was). -/
theorem claim_C9 (s : Impl) (rc : Impl → Impl × List Event)
    (h : s.is_executing = true) :
    Impl.Run rc s = AResult.fatal s ∧ Impl.Reset s = AResult.fatal s := by
  constructor <;> simp [Impl.Run, Impl.Reset, h]

/-- Witness for C9 at the sample executing state. -/
theorem claim_C9_witness :
    Impl.Run (fun t => (t, [])) sampleJitExec = AResult.fatal sampleJitExec
    ∧ Impl.Reset sampleJitExec = AResult.fatal sampleJitExec :=
  claim_C9 sampleJitExec (fun t => (t, [])) rfl

/-- C10: when no invalidation is pending (the flag is down and the
invalidation set is empty), the drain step changes nothing — the state
is returned untouched and no action (no RSB reset, no clearing or
range-invalidation call) is performed. -/
theorem claim_C10 (s : Impl) (h1 : s.invalidate_entire_cache = false)
    (h2 : s.invalid_cache_ranges = []) :
    Impl.PerformRequestedCacheInvalidation s = (s, []) := by
  simp [Impl.PerformRequestedCacheInvalidation, h1, h2]

/-- Witness for C10 at the sample idle state. -/
theorem claim_C10_witness :
    Impl.PerformRequestedCacheInvalidation sampleJit = (sampleJit, []) :=
  claim_C10 sampleJit rfl rfl

/-- C6: for every register or vector index outside the valid range
(0..31), `GetRegister`, `SetRegister`, `GetVector` and `SetVector`
fail with an explicit out-of-bounds error (`none`), never clamping the
index or writing out of range. -/
theorem claim_C6 (s : Impl) (index v : Nat) (w : Vector)
    (hreg : s.jit_state.reg.length = 31) (hvec : s.jit_state.vec.length = 64)
    (hi : 32 ≤ index) :
    Impl.GetRegister s index = none ∧ Impl.SetRegister s index v = none
    ∧ Impl.GetVector s index = none ∧ Impl.SetVector s index w = none := by
  have h31 : ¬ index = 31 := by omega
  refine ⟨?_, ?_, ?_, ?_⟩
  · simp only [Impl.GetRegister, if_neg h31]
    exact List.get?_eq_none.mpr (by omega)
  · simp only [Impl.SetRegister, if_neg h31]
    rw [if_neg (by omega)]
  · simp only [Impl.GetVector]
    rw [List.get?_eq_none.mpr (by omega)]
  · simp only [Impl.SetVector]
    rw [if_neg (by omega)]

/-- Witness for C6 at the sample state with index 32. -/
theorem claim_C6_witness :
    Impl.GetRegister sampleJit 32 = none
    ∧ Impl.SetRegister sampleJit 32 5 = none
    ∧ Impl.GetVector sampleJit 32 = none
    ∧ Impl.SetVector sampleJit 32 ⟨1, 2⟩ = none :=
  claim_C6 sampleJit 32 5 ⟨1, 2⟩ (by decide) (by decide) (by decide)

/-- C5: `Reset` (called while not executing) restores all guest state
— registers, program counter, stack pointer, halt-request flag — to
the zero/initial values and leaves the code cache's contents
unchanged: every lookup gives the same answer as before, so a
previously compiled context is still a cache hit. -/
theorem claim_C5 (s : Impl) (i : Nat) (k : Nat × Nat)
    (h : s.is_executing = false) (hi : i < 32) :
    Impl.Reset s = AResult.ok { s with jit_state := A64JitState.init }
    ∧ Impl.GetRegister { s with jit_state := A64JitState.init } i = some 0
    ∧ Impl.GetPC { s with jit_state := A64JitState.init } = 0
    ∧ Impl.GetSP { s with jit_state := A64JitState.init } = 0
    ∧ ({ s with jit_state := A64JitState.init } : Impl).jit_state.halt_requested = false
    ∧ ({ s with jit_state := A64JitState.init } : Impl).blocks = s.blocks
    ∧ GetBasicBlock ({ s with jit_state := A64JitState.init } : Impl).blocks k
        = GetBasicBlock s.blocks k := by
  refine ⟨by simp [Impl.Reset, h], ?_, rfl, rfl, rfl, rfl, rfl⟩
  interval_cases i <;> rfl

/-- Witness for C5 at the sample state: register 7 reads back zero and
the previously compiled context key `(100, 0)` is still a hit. -/
theorem claim_C5_witness :
    Impl.Reset sampleJit = AResult.ok { sampleJit with jit_state := A64JitState.init }
    ∧ Impl.GetRegister { sampleJit with jit_state := A64JitState.init } 7 = some 0
    ∧ Impl.GetPC { sampleJit with jit_state := A64JitState.init } = 0
    ∧ Impl.GetSP { sampleJit with jit_state := A64JitState.init } = 0
    ∧ ({ sampleJit with jit_state := A64JitState.init } : Impl).jit_state.halt_requested = false
    ∧ ({ sampleJit with jit_state := A64JitState.init } : Impl).blocks = sampleJit.blocks
    ∧ GetBasicBlock ({ sampleJit with jit_state := A64JitState.init } : Impl).blocks (100, 0)
        = GetBasicBlock sampleJit.blocks (100, 0) :=
  claim_C5 sampleJit 7 (100, 0) rfl (by decide)

/-- Adding a nonempty closed interval to the empty interval set yields
the singleton set. -/
theorem IntervalSet.add_nil_of_le {a b : Nat} (h : a ≤ b) :
    IntervalSet.add ⟨a, b⟩ [] = [⟨a, b⟩] := by
  simp [IntervalSet.add, Ivl.isEmpty, Nat.not_lt.mpr h]

/-- C7: calling the clear-all operation twice in a row (while idle)
has the same observable effect as calling it once — the cache is
empty, every subsequent lookup misses, and the "invalidate everything"
flag and the invalidation set end false/empty in both cases. -/
theorem claim_C7 (s : Impl) (k : Nat × Nat) (h : s.is_executing = false) :
    (Impl.ClearCache (Impl.ClearCache s).1).1 = (Impl.ClearCache s).1
    ∧ (Impl.ClearCache s).1.blocks = []
    ∧ GetBasicBlock (Impl.ClearCache s).1.blocks k = none
    ∧ (Impl.ClearCache s).1.invalidate_entire_cache = false
    ∧ (Impl.ClearCache s).1.invalid_cache_ranges = [] := by
  simp [Impl.ClearCache, Impl.RequestCacheInvalidation,
        Impl.PerformRequestedCacheInvalidation, h, GetBasicBlock,
        A64JitState.ResetRSB]

/-- Witness for C7 at the sample idle state, looking up the previously
compiled key. -/
theorem claim_C7_witness :
    (Impl.ClearCache (Impl.ClearCache sampleJit).1).1 = (Impl.ClearCache sampleJit).1
    ∧ (Impl.ClearCache sampleJit).1.blocks = []
    ∧ GetBasicBlock (Impl.ClearCache sampleJit).1.blocks (100, 0) = none
    ∧ (Impl.ClearCache sampleJit).1.invalidate_entire_cache = false
    ∧ (Impl.ClearCache sampleJit).1.invalid_cache_ranges = [] :=
  claim_C7 sampleJit (100, 0) rfl

/-- C8: for every call `InvalidateCacheRange(start, length)` — all
lengths, including 0 and values where `start + length` overflows — the
interval merged into the invalidation set is the closed interval with
lower bound `start` and upper bound `start + length - 1` computed in
unsigned 64-bit (mod 2^64) arithmetic.  The upper bound on the
right-hand side is computed independently over `Int`, where the
subtraction cannot truncate. -/
theorem claim_C8 (s : Impl) (start_address length : Nat)
    (hs : start_address < U64_MOD) (hl : length < U64_MOD)
    (hx : s.is_executing = true) :
    (Impl.InvalidateCacheRange s start_address length).1.invalid_cache_ranges
      = IntervalSet.add
          ⟨start_address,
           (((start_address : Int) + (length : Int) - 1) % (U64_MOD : Int)).toNat⟩
          s.invalid_cache_ranges := by
  have key : (start_address + length + (U64_MOD - 1)) % U64_MOD
      = (((start_address : Int) + (length : Int) - 1) % (U64_MOD : Int)).toNat := by
    unfold U64_MOD
    omega
  simp [Impl.InvalidateCacheRange, Impl.RequestCacheInvalidation, hx, key]

/-- Witness for C8 at the sample executing state, at a zero-length
request (`start = 5`, `length = 0`, whose upper bound wraps to 4, an
empty closed interval) and at a wrapping request
(`start = 2^64 - 1`, `length = 3`). -/
theorem claim_C8_witness :
    (Impl.InvalidateCacheRange sampleJitExec 5 0).1.invalid_cache_ranges
      = IntervalSet.add
          ⟨5, (((5 : Nat) : Int) + ((0 : Nat) : Int) - 1) % (U64_MOD : Int) |>.toNat⟩
          sampleJitExec.invalid_cache_ranges
    ∧ (Impl.InvalidateCacheRange sampleJitExec (U64_MOD - 1) 3).1.invalid_cache_ranges
      = IntervalSet.add
          ⟨U64_MOD - 1, (((U64_MOD - 1 : Nat) : Int) + ((3 : Nat) : Int) - 1) % (U64_MOD : Int) |>.toNat⟩
          sampleJitExec.invalid_cache_ranges :=
  ⟨claim_C8 sampleJitExec 5 0 (by decide) (by decide) rfl,
   claim_C8 sampleJitExec (U64_MOD - 1) 3 (by decide) (by decide) rfl⟩

/-- C1: an invalidation request (`ClearCache` or
`InvalidateCacheRange`) issued while the coordinator is executing only
sets the halt-request flag and records the pending invalidation,
mutating no cache state before it returns (part a); issued while idle,
it performs the invalidation immediately, before the request returns
(part b); and a request deferred during execution is performed exactly
once, when `Run` next returns (part c — the trace shows no
invalidation action while generated code runs and exactly one drain
afterwards). -/
theorem claim_C1 (s : Impl) (start_address length : Nat)
    (hr : s.invalid_cache_ranges = [])
    (hf : s.invalidate_entire_cache = false)
    (hne : start_address ≤ (start_address + length + (U64_MOD - 1)) % U64_MOD) :
    (s.is_executing = true →
      Impl.ClearCache s
        = ({ s with jit_state := { s.jit_state with halt_requested := true },
                    invalidate_entire_cache := true }, [])
      ∧ Impl.InvalidateCacheRange s start_address length
        = ({ s with jit_state := { s.jit_state with halt_requested := true },
                    invalid_cache_ranges :=
                      [⟨start_address, (start_address + length + (U64_MOD - 1)) % U64_MOD⟩] },
           []))
    ∧ (s.is_executing = false →
      (Impl.ClearCache s).1
        = { s with jit_state := s.jit_state.ResetRSB, blocks := [],
                   space_remaining := s.capacity }
      ∧ (Impl.InvalidateCacheRange s start_address length).1
        = { s with jit_state := s.jit_state.ResetRSB,
                   blocks := EmitInvalidateRanges
                     [⟨start_address, (start_address + length + (U64_MOD - 1)) % U64_MOD⟩]
                     s.blocks })
    ∧ (s.is_executing = false →
      Impl.Run (fun t => Impl.ClearCache t) s
        = AResult.ok
            ({ s with jit_state := { s.jit_state with halt_requested := true, rsb := [] },
                      blocks := [], space_remaining := s.capacity,
                      is_executing := false },
             [Event.setExecuting, Event.clearHalt, Event.resetRSB, Event.bocClear,
              Event.emitClear, Event.markIdle])
      ∧ Impl.Run (fun t => Impl.InvalidateCacheRange t start_address length) s
        = AResult.ok
            ({ s with jit_state := { s.jit_state with halt_requested := true, rsb := [] },
                      blocks := EmitInvalidateRanges
                        [⟨start_address, (start_address + length + (U64_MOD - 1)) % U64_MOD⟩]
                        s.blocks,
                      is_executing := false },
             [Event.setExecuting, Event.clearHalt, Event.resetRSB,
              Event.emitInvRanges
                [⟨start_address, (start_address + length + (U64_MOD - 1)) % U64_MOD⟩],
              Event.markIdle])) := by
  refine ⟨fun hx => ⟨?_, ?_⟩, fun hx => ⟨?_, ?_⟩, fun hx => ⟨?_, ?_⟩⟩ <;>
    simp [Impl.ClearCache, Impl.InvalidateCacheRange, Impl.RequestCacheInvalidation,
          Impl.PerformRequestedCacheInvalidation, Impl.Run, A64JitState.ResetRSB,
          hx, hr, hf, IntervalSet.add_nil_of_le hne]

/-- Witness for C1: part (a) at the sample executing state, parts (b)
and (c) at the sample idle state, with the range `[100, 108)` (so the
closed interval `[100, 107]`, which covers `sampleBlock`). -/
theorem claim_C1_witness :
    (Impl.ClearCache sampleJitExec
        = ({ sampleJitExec with
              jit_state := { sampleJitExec.jit_state with halt_requested := true },
              invalidate_entire_cache := true }, [])
      ∧ Impl.InvalidateCacheRange sampleJitExec 100 8
        = ({ sampleJitExec with
              jit_state := { sampleJitExec.jit_state with halt_requested := true },
              invalid_cache_ranges := [⟨100, (100 + 8 + (U64_MOD - 1)) % U64_MOD⟩] },
           []))
    ∧ ((Impl.ClearCache sampleJit).1
        = { sampleJit with jit_state := sampleJit.jit_state.ResetRSB, blocks := [],
                           space_remaining := sampleJit.capacity }
      ∧ (Impl.InvalidateCacheRange sampleJit 100 8).1
        = { sampleJit with
              jit_state := sampleJit.jit_state.ResetRSB,
              blocks := EmitInvalidateRanges
                [⟨100, (100 + 8 + (U64_MOD - 1)) % U64_MOD⟩] sampleJit.blocks })
    ∧ (Impl.Run (fun t => Impl.ClearCache t) sampleJit
        = AResult.ok
            ({ sampleJit with
                jit_state := { sampleJit.jit_state with halt_requested := true, rsb := [] },
                blocks := [], space_remaining := sampleJit.capacity,
                is_executing := false },
             [Event.setExecuting, Event.clearHalt, Event.resetRSB, Event.bocClear,
              Event.emitClear, Event.markIdle])
      ∧ Impl.Run (fun t => Impl.InvalidateCacheRange t 100 8) sampleJit
        = AResult.ok
            ({ sampleJit with
                jit_state := { sampleJit.jit_state with halt_requested := true, rsb := [] },
                blocks := EmitInvalidateRanges
                  [⟨100, (100 + 8 + (U64_MOD - 1)) % U64_MOD⟩] sampleJit.blocks,
                is_executing := false },
             [Event.setExecuting, Event.clearHalt, Event.resetRSB,
              Event.emitInvRanges [⟨100, (100 + 8 + (U64_MOD - 1)) % U64_MOD⟩],
              Event.markIdle])) :=
  ⟨(claim_C1 sampleJitExec 100 8 rfl rfl (by decide)).1 rfl,
   (claim_C1 sampleJit 100 8 rfl rfl (by decide)).2.1 rfl,
   (claim_C1 sampleJit 100 8 rfl rfl (by decide)).2.2 rfl⟩

/-- After the drain step, no pending invalidation remains: the
"invalidate everything" flag is down and the invalidation set is
empty. -/
theorem Perform_drained (t : Impl) :
    (Impl.PerformRequestedCacheInvalidation t).1.invalidate_entire_cache = false
    ∧ (Impl.PerformRequestedCacheInvalidation t).1.invalid_cache_ranges = [] := by
  unfold Impl.PerformRequestedCacheInvalidation
  split
  · next hcond =>
    rw [Bool.and_eq_true, Bool.not_eq_true', List.isEmpty_iff] at hcond
    exact ⟨hcond.1, hcond.2⟩
  · split <;> exact ⟨rfl, rfl⟩

/-- The drain step never emits the idle-marking event: `markIdle`
belongs to `Run`'s scope-exit guard alone. -/
theorem Perform_trace_no_markIdle (t : Impl) :
    Event.markIdle ∉ (Impl.PerformRequestedCacheInvalidation t).2 := by
  unfold Impl.PerformRequestedCacheInvalidation
  split
  · simp
  · split <;> simp

/-- A trace that ends in the idle-marking event has it as its last
element. -/
theorem trace_getLast_markIdle (L : List Event) :
    (L ++ [Event.markIdle]).getLast? = some Event.markIdle :=
  List.getLast?_concat _

/-- A trace whose three leading segments are free of the idle-marking
event and that ends in it contains it exactly once. -/
theorem trace_count_markIdle {L1 L2 L3 : List Event}
    (h1 : Event.markIdle ∉ L1) (h2 : Event.markIdle ∉ L2)
    (h3 : Event.markIdle ∉ L3) :
    (L1 ++ L2 ++ L3 ++ [Event.markIdle]).count Event.markIdle = 1 := by
  rw [List.count_append, List.count_append, List.count_append,
      List.count_eq_zero.mpr h1, List.count_eq_zero.mpr h2,
      List.count_eq_zero.mpr h3]
  rfl

/-- Counterexample to C2 as stated: at the sample state, with a
clear-all request deferred while generated code runs, `Run`'s trace
performs the drain (`resetRSB` at position 2, `emitClear` at position
4) strictly before the idle-marking (`markIdle` at position 5) — the
coordinator is *not* first marked idle and then drained; the
`SCOPE_EXIT` guard that lowers `is_executing` only fires when `Run`'s
scope exits, after `PerformRequestedCacheInvalidation` has already
run. -/
theorem claim_C2_counterexample :
    Impl.Run (fun t => Impl.ClearCache t) sampleJit
      = AResult.ok
          ({ sampleJit with
              jit_state := { sampleJitState with halt_requested := true },
              blocks := [],
              space_remaining := 16777216 },
           [Event.setExecuting, Event.clearHalt, Event.resetRSB, Event.bocClear,
            Event.emitClear, Event.markIdle])
    ∧ Event.resetRSB ∈ [Event.setExecuting, Event.clearHalt, Event.resetRSB,
        Event.bocClear, Event.emitClear, Event.markIdle]
    ∧ ¬ List.indexOf Event.markIdle
          [Event.setExecuting, Event.clearHalt, Event.resetRSB, Event.bocClear,
           Event.emitClear, Event.markIdle]
        < List.indexOf Event.resetRSB
          [Event.setExecuting, Event.clearHalt, Event.resetRSB, Event.bocClear,
           Event.emitClear, Event.markIdle] :=
  ⟨by decide, by decide, by decide⟩

/-- C2 (amended): on the normal exit path, `Run` performs whatever
invalidation accumulated during execution and only afterwards — last
of all, via the scope-exit guard — marks the coordinator idle.  After
`Run` returns the coordinator is idle and no pending invalidation
remains; the idle-marking event is the last event of the trace and
occurs exactly once, so every drain action precedes it. -/
theorem claim_C2 (s : Impl) (rc : Impl → Impl × List Event)
    (h : s.is_executing = false)
    (hrc : Event.markIdle ∉
      (rc { s with
              is_executing := true,
              jit_state := { s.jit_state with halt_requested := false } }).2) :
    ∀ s' tr, Impl.Run rc s = AResult.ok (s', tr) →
      s'.is_executing = false
      ∧ s'.invalidate_entire_cache = false
      ∧ s'.invalid_cache_ranges = []
      ∧ tr.getLast? = some Event.markIdle
      ∧ tr.count Event.markIdle = 1 := by
  intro s' tr heq
  rw [Impl.Run, if_neg (by rw [h]; exact Bool.false_ne_true)] at heq
  rw [AResult.ok.injEq, Prod.mk.injEq] at heq
  obtain ⟨hs', htr⟩ := heq
  subst hs' htr
  exact ⟨rfl, (Perform_drained _).1, (Perform_drained _).2,
    trace_getLast_markIdle _,
    trace_count_markIdle (by decide) hrc (Perform_trace_no_markIdle _)⟩

/-- Witness for C2 (amended) at the sample idle state with generated
code that halts at once. -/
theorem claim_C2_witness :
    sampleJit.is_executing = false
    ∧ (sampleJit.is_executing = false
      ∧ sampleJit.invalidate_entire_cache = false
      ∧ sampleJit.invalid_cache_ranges = []
      ∧ ([Event.setExecuting, Event.clearHalt, Event.markIdle] : List Event).getLast?
          = some Event.markIdle
      ∧ ([Event.setExecuting, Event.clearHalt, Event.markIdle] : List Event).count
          Event.markIdle = 1) :=
  ⟨rfl,
   claim_C2 sampleJit (fun t => (t, [])) rfl (by decide) sampleJit
     [Event.setExecuting, Event.clearHalt, Event.markIdle] (by decide)⟩

/-- C3: the lazy lookup/compile path invoked from generated code.  On
a cache hit under the current context key it returns the existing
block's entry point immediately — no translation work, no capacity
check, no state change.  On a miss with remaining capacity at or above
the low-water mark it translates the current guest address, runs
dead-code elimination then the verification pass, emits the block and
returns the new entry point.  On a miss below the low-water mark it
performs a full cache clear *before* compiling. -/
theorem claim_C3 (ext : Ext) (s : Impl) (b : Block) :
    (GetBasicBlock s.blocks s.jit_state.GetUniqueHash = some b →
      Impl.GetCurrentBlock ext s = (s, b.entry, []))
    ∧ (GetBasicBlock s.blocks s.jit_state.GetUniqueHash = none →
       MINIMUM_REMAINING_CODESIZE ≤ s.space_remaining →
      Impl.GetCurrentBlock ext s
        = ({ s with
              blocks :=
                (⟨s.jit_state.GetUniqueHash, s.jit_state.pc,
                  ext.blockSize (ext.dce (ext.translate s.jit_state.pc)),
                  s.next_ep⟩ : Block) :: s.blocks,
              next_ep := s.next_ep + 1 },
           s.next_ep,
           [Event.spaceCheck, Event.translateAddr s.jit_state.pc, Event.dcePass,
            Event.verifyPass, Event.emitBlockEv s.jit_state.GetUniqueHash]))
    ∧ (GetBasicBlock s.blocks s.jit_state.GetUniqueHash = none →
       s.space_remaining < MINIMUM_REMAINING_CODESIZE →
      Impl.GetCurrentBlock ext s
        = ({ s with
              jit_state := s.jit_state.ResetRSB,
              blocks :=
                [(⟨s.jit_state.GetUniqueHash, s.jit_state.pc,
                   ext.blockSize (ext.dce (ext.translate s.jit_state.pc)),
                   s.next_ep⟩ : Block)],
              space_remaining := s.capacity,
              invalid_cache_ranges := [],
              invalidate_entire_cache := false,
              next_ep := s.next_ep + 1 },
           s.next_ep,
           [Event.spaceCheck, Event.resetRSB, Event.bocClear, Event.emitClear,
            Event.translateAddr s.jit_state.pc, Event.dcePass, Event.verifyPass,
            Event.emitBlockEv s.jit_state.GetUniqueHash])) := by
  refine ⟨fun hb => ?_, fun hn hsp => ?_, fun hn hsp => ?_⟩
  · simp [Impl.GetCurrentBlock, hb]
  · have hn' : GetBasicBlock s.blocks (s.jit_state.pc, s.jit_state.fpcr) = none := hn
    simp [Impl.GetCurrentBlock, hn', Nat.not_lt.mpr hsp, A64JitState.GetUniqueHash]
  · have hn' : GetBasicBlock s.blocks (s.jit_state.pc, s.jit_state.fpcr) = none := hn
    simp [Impl.GetCurrentBlock, hn', hsp, Impl.PerformRequestedCacheInvalidation,
          A64JitState.GetUniqueHash, A64JitState.ResetRSB]

/-- Sample external collaborators for the compile path: an opaque
translation, an identity dead-code elimination, and four-byte
blocks. -/
def sampleExt : Ext :=
  { translate := fun v => v + 1, dce := fun b => b, blockSize := fun _ => 4 }

/-- The sample coordinator with an empty block table (every lookup
misses) and ample remaining capacity. -/
def sampleJitMiss : Impl := { sampleJit with blocks := [] }

/-- The sample coordinator with an empty block table and remaining
capacity below the low-water mark. -/
def sampleJitLow : Impl := { sampleJit with blocks := [], space_remaining := 1000 }

/-- Witness for C3: a hit at the sample state, a miss with ample
capacity, and a miss under memory pressure. -/
theorem claim_C3_witness :
    Impl.GetCurrentBlock sampleExt sampleJit = (sampleJit, sampleBlock.entry, [])
    ∧ Impl.GetCurrentBlock sampleExt sampleJitMiss
        = ({ sampleJitMiss with
              blocks :=
                (⟨sampleJitMiss.jit_state.GetUniqueHash, sampleJitMiss.jit_state.pc,
                  sampleExt.blockSize
                    (sampleExt.dce (sampleExt.translate sampleJitMiss.jit_state.pc)),
                  sampleJitMiss.next_ep⟩ : Block) :: sampleJitMiss.blocks,
              next_ep := sampleJitMiss.next_ep + 1 },
           sampleJitMiss.next_ep,
           [Event.spaceCheck, Event.translateAddr sampleJitMiss.jit_state.pc,
            Event.dcePass, Event.verifyPass,
            Event.emitBlockEv sampleJitMiss.jit_state.GetUniqueHash])
    ∧ Impl.GetCurrentBlock sampleExt sampleJitLow
        = ({ sampleJitLow with
              jit_state := sampleJitLow.jit_state.ResetRSB,
              blocks :=
                [(⟨sampleJitLow.jit_state.GetUniqueHash, sampleJitLow.jit_state.pc,
                   sampleExt.blockSize
                     (sampleExt.dce (sampleExt.translate sampleJitLow.jit_state.pc)),
                   sampleJitLow.next_ep⟩ : Block)],
              space_remaining := sampleJitLow.capacity,
              invalid_cache_ranges := [],
              invalidate_entire_cache := false,
              next_ep := sampleJitLow.next_ep + 1 },
           sampleJitLow.next_ep,
           [Event.spaceCheck, Event.resetRSB, Event.bocClear, Event.emitClear,
            Event.translateAddr sampleJitLow.jit_state.pc, Event.dcePass,
            Event.verifyPass, Event.emitBlockEv sampleJitLow.jit_state.GetUniqueHash]) :=
  ⟨(claim_C3 sampleExt sampleJit sampleBlock).1 (by decide),
   (claim_C3 sampleExt sampleJitMiss sampleBlock).2.1 (by decide) (by decide),
   (claim_C3 sampleExt sampleJitLow sampleBlock).2.2 (by decide) (by decide)⟩

end A64

end Dynarmic
